import Mathlib

/-!
Formal model of the CutLog estimation engine (`src/app.js`).

JavaScript numbers are modeled as exact rationals (`ℚ`) and `Math.round x`
as `⌊x + 0.5⌋` (its behaviour on all finite doubles, including negative
halves). Integer-valued results (`Math.round`, `Math.max(0, …)` of rounds)
are given type `ℤ`. Strings are modeled as `List Char`;
`String.prototype.toLowerCase` is modeled on the ASCII range (all food
keys and claim inputs are ASCII letters, digits or CJK characters, which
`toLowerCase` leaves unchanged). Display-only strings produced by the code
(`explanation`, `followups`, `detail`) carry no verified behaviour and are
not modeled. `safeNum` is the identity on the rational model (no NaN).
-/

unseal Rat.add Rat.mul Rat.inv Rat.sub Rat.ofScientific

/-- Model of JavaScript `Math.round`: round half toward positive infinity. -/
def jsRound (x : ℚ) : ℤ := ⌊x + 0.5⌋

/-- Source function `clamp(x, a, b) = Math.max(a, Math.min(b, x))` from `app.js`. -/
def clamp (x a b : ℚ) : ℚ := max a (min b x)

/-- Source function `fmtK(v) = Math.round(v)` from `app.js`. -/
def fmtK (v : ℚ) : ℤ := jsRound v

/-- Source function `mean(arr)` from `app.js`: 0 on the empty list, else sum / length. -/
def mean (arr : List ℚ) : ℚ := if arr.length = 0 then 0 else arr.sum / arr.length

/-- Model of `Number.prototype.toFixed(1)` (re-coerced with unary `+`):
round to one decimal, ties toward the larger value. -/
def toFixed1 (x : ℚ) : ℚ := (jsRound (10 * x) : ℚ) / 10

/-- Model of `Number.prototype.toFixed(2)` (re-coerced with unary `+`). -/
def toFixed2 (x : ℚ) : ℚ := (jsRound (100 * x) : ℚ) / 100

/-- The `{low, high, mid, u}` calorie range produced by `boundedRange`. -/
structure KRange where
  low : ℤ
  high : ℤ
  mid : ℤ
  u : ℚ
deriving DecidableEq, Repr

/-- Source function `boundedRange(mid, u)` from `app.js`: clamp the relative uncertainty to
`[0.05, 0.60]`, then `low = max(0, round(mid*(1-u)))`,
`high = max(low, round(mid*(1+u)))`, `mid = round(mid)`. -/
def boundedRange (mid u : ℚ) : KRange :=
  let uu := clamp u 0.05 0.60
  let low := max 0 (jsRound (mid * (1 - uu)))
  { low := low
    high := max low (jsRound (mid * (1 + uu)))
    mid := jsRound mid
    u := uu }

/-- The `{kcal, p, c, f}` part of a meal estimate handed to `autoMergeMeal`
(absent JS fields coerce to 0 through `safeNum`). -/
structure MealIn where
  kcal : ℚ
  p : ℚ
  c : ℚ
  f : ℚ
deriving DecidableEq, Repr

/-- The merged estimate `{kcal, p, c, f, unc}` returned by `autoMergeMeal`. -/
structure MergedMeal where
  kcal : ℤ
  p : ℚ
  c : ℚ
  f : ℚ
  unc : ℚ
deriving DecidableEq, Repr

/-- The `pick` closure inside `autoMergeMeal`: zero when both inputs are
non-positive, the other value when one is, the average when the two differ
by at most 15% of the larger, else the first value. -/
def pick (a b : ℚ) : ℚ :=
  if a ≤ 0 ∧ b ≤ 0 then 0
  else if a ≤ 0 then b
  else if b ≤ 0 then a
  else if |a - b| / max a b ≤ 0.15 then (a + b) / 2
  else a

/-- Source function `autoMergeMeal(m1, m2)` from `app.js`: the default output
`{kcal 0, …, unc 0.35}` when neither kcal is positive; otherwise every
macro merged through `pick` (kcal via `fmtK`, macros via `toFixed(1)`),
with uncertainty `clamp(0.2 + relDiff, 0.2, 0.95)` when both kcal are
present and `0.45` when only one is. -/
def autoMergeMeal (m1 m2 : MealIn) : MergedMeal :=
  if ¬ 0 < m1.kcal ∧ ¬ 0 < m2.kcal then
    { kcal := 0, p := 0, c := 0, f := 0, unc := 0.35 }
  else
    { kcal := fmtK (pick m1.kcal m2.kcal)
      p := toFixed1 (pick m1.p m2.p)
      c := toFixed1 (pick m1.c m2.c)
      f := toFixed1 (pick m1.f m2.f)
      unc :=
        if 0 < m1.kcal ∧ 0 < m2.kcal then
          clamp (0.2 + |m1.kcal - m2.kcal| / max m1.kcal m2.kcal) 0.2 0.95
        else 0.45 }


/-- Source function `keytelKcalPerMinMale(hr, weightKg, age)` from `app.js`: the Keytel 2005
male regression in kJ/min, converted to kcal/min and floored at 0. -/
def keytelKcalPerMinMale (hr weightKg age : ℚ) : ℚ :=
  max 0 ((-55.0969 + 0.6309 * hr + 0.1988 * weightKg + 0.2017 * age) / 4.184)

/-- Source function `keytelKcalPerMinFemale(hr, weightKg, age)` from `app.js`: the Keytel
2005 female regression in kJ/min, converted to kcal/min and floored at 0. -/
def keytelKcalPerMinFemale (hr weightKg age : ℚ) : ℚ :=
  max 0 ((-20.4022 + 0.4472 * hr - 0.1263 * weightKg + 0.074 * age) / 4.184)

/-- The `sex === "female" ? keytelKcalPerMinFemale : keytelKcalPerMinMale`
dispatch used by both workout estimators. -/
def kcalPerMin (sex : String) (hr weightKg age : ℚ) : ℚ :=
  if sex = "female" then keytelKcalPerMinFemale hr weightKg age
  else keytelKcalPerMinMale hr weightKg age

/-- Source function `estimateWorkoutKcalFromAvgHR({sex, hrAvg, minutes, weightKg, age,
calFactor})` from `app.js`: zero when any of hrAvg/minutes/weightKg/age is
zero (JS falsy), else `max(0, round(kcalMin × minutes × (calFactor || 1)))`. -/
def estimateWorkoutKcalFromAvgHR (sex : String) (hrAvg minutes weightKg age calFactor : ℚ) : ℤ :=
  if hrAvg = 0 ∨ minutes = 0 ∨ weightKg = 0 ∨ age = 0 then 0
  else
    max 0 (jsRound (kcalPerMin sex hrAvg weightKg age * minutes
      * (if calFactor = 0 then 1 else calFactor)))

/-- One heart-rate sample `{t, hr}`; `t` is the timestamp in epoch
milliseconds (a valid `Date`), `hr` a finite number, so the
`x.t instanceof Date && Number.isFinite(x.hr)` filter in the source keeps
every sample of this model. -/
structure HRSample where
  t : ℚ
  hr : ℚ
deriving DecidableEq, Repr

/-- The `{kcal, minutes, hrAvg}` record returned by
`estimateWorkoutKcalFromSeries`. -/
structure SeriesOut where
  kcal : ℤ
  minutes : ℤ
  hrAvg : ℤ
deriving DecidableEq, Repr

/-- The `sort((a, b) => a.t - b.t)` step: JavaScript `Array.prototype.sort`
is a stable sort by timestamp, modeled as a stable insertion sort. -/
def sortByTime (series : List HRSample) : List HRSample :=
  List.insertionSort (fun a b : HRSample => a.t ≤ b.t) series

instance : IsTotal HRSample (fun a b : HRSample => a.t ≤ b.t) :=
  ⟨fun a b => le_total a.t b.t⟩

instance : IsTrans HRSample (fun a b : HRSample => a.t ≤ b.t) :=
  ⟨fun _ _ _ hab hbc => le_trans hab hbc⟩

/-- The accumulation loop of `estimateWorkoutKcalFromSeries`, expressed
structurally over consecutive pairs of the (sorted) list: returns the raw
kcal sum, the accepted minutes sum, and the list of heart rates used.
A pair is accepted when its gap `dtMin = (b.t − a.t)/60000` satisfies
`0 < dtMin ≤ 10`; the kcal contribution uses the rate of the earlier sample. -/
def pairAccum (sex : String) (weightKg age : ℚ) : List HRSample → ℚ × ℚ × List ℚ
  | a :: b :: rest =>
    let prev := pairAccum sex weightKg age (b :: rest)
    let dtMin := (b.t - a.t) / 60000
    if 0 < dtMin ∧ dtMin ≤ 10 then
      (kcalPerMin sex a.hr weightKg age * dtMin + prev.1, dtMin + prev.2.1,
        a.hr :: prev.2.2)
    else prev
  | _ => (0, 0, [])

/-- Source function `estimateWorkoutKcalFromSeries({sex, series, weightKg, age, calFactor})`
from `app.js`: all-zero when fewer than two samples or weight/age is zero;
else sort by time, accumulate over accepted consecutive pairs, scale by
`calFactor || 1`, and round. -/
def estimateWorkoutKcalFromSeries (sex : String) (series : List HRSample)
    (weightKg age calFactor : ℚ) : SeriesOut :=
  if series.length < 2 ∨ weightKg = 0 ∨ age = 0 then ⟨0, 0, 0⟩
  else
    let sorted := sortByTime series
    if sorted.length < 2 then ⟨0, 0, 0⟩
    else
      let acc := pairAccum sex weightKg age sorted
      { kcal := max 0 (jsRound (acc.1 * (if calFactor = 0 then 1 else calFactor)))
        minutes := jsRound acc.2.1
        hrAvg := if acc.2.2.isEmpty then 0 else jsRound (mean acc.2.2) }

/-- Specification-side helper: the `dtMin` gaps (in minutes) between
consecutive samples of a list. -/
def gaps : List HRSample → List ℚ
  | a :: b :: rest => (b.t - a.t) / 60000 :: gaps (b :: rest)
  | _ => []

/-- Specification-side helper: the sum of only the accepted interval
lengths (gaps in `(0, 10]` minutes). -/
def acceptedSum (l : List HRSample) : ℚ :=
  ((gaps l).filter (fun dt => decide (0 < dt ∧ dt ≤ 10))).sum

/-- Specification-side helper: the wall-clock span, in minutes, from the
first to the last sample of a list. -/
def spanMinutes : List HRSample → ℚ
  | [] => 0
  | a :: rest => ((rest.getLastD a).t - a.t) / 60000

/-- Model of JavaScript `Math.round` on real values (for the one function,
`trimpBanister`, that uses `Math.exp`). -/
noncomputable def jsRoundR (x : ℝ) : ℤ := ⌊x + 0.5⌋

/-- Source function `trimpBanister({minutes, hrAvg, hrRest, hrMax, sex})` from `app.js`:
zero when any input is zero (JS falsy) or `hrMax − hrRest ≤ 0`; else the
Banister TRIMP `round(minutes × HRr × a × exp(b × HRr))` with
`HRr = clamp((hrAvg − hrRest)/(hrMax − hrRest), 0, 1.2)` and
`(a, b) = (0.86, 1.67)` for `"female"`, `(0.64, 1.92)` otherwise. -/
noncomputable def trimpBanister (minutes hrAvg hrRest hrMax : ℚ) (sex : String) : ℤ :=
  if minutes = 0 ∨ hrAvg = 0 ∨ hrRest = 0 ∨ hrMax = 0 then 0
  else if hrMax - hrRest ≤ 0 then 0
  else
    let HRr : ℚ := clamp ((hrAvg - hrRest) / (hrMax - hrRest)) 0 1.2
    jsRoundR (((minutes * HRr * (if sex = "female" then 0.86 else 0.64) : ℚ) : ℝ)
      * Real.exp (((if sex = "female" then (1.67 : ℚ) else 1.92) * HRr : ℚ) : ℝ))


/-- ASCII digit test (model of the regex class `\\d`). -/
def isDigitC (c : Char) : Bool := '0' ≤ c && c ≤ '9'

/-- Whitespace test (model of the regex class `\\s` / `String.trim`,
restricted to the ASCII whitespace characters). -/
def isWsC (c : Char) : Bool :=
  c = ' ' || c = '\t' || c = '\n' || c = '\r' || c = '\x0b' || c = '\x0c'

/-- Word-character test (the regex class `\\w`), which decides the `\\b`
word boundary: ASCII letters, digits and underscore only, so CJK
characters are not word characters. -/
def isWordC (c : Char) : Bool :=
  ('a' ≤ c && c ≤ 'z') || ('A' ≤ c && c ≤ 'Z') || isDigitC c || c = '_'

/-- Model of `String.prototype.toLowerCase` on the ASCII range (all food
keys and claim inputs are ASCII or CJK, which it leaves unchanged). -/
def asciiLowerC (c : Char) : Char :=
  if 'A' ≤ c && c ≤ 'Z' then Char.ofNat (c.toNat + 32) else c

/-- Does the first list start with the second? -/
def startsWithL : List Char → List Char → Bool
  | _, [] => true
  | [], _ :: _ => false
  | c :: t, d :: pat => c = d && startsWithL t pat

/-- Substring containment: model of `String.prototype.includes`. -/
def includesL : List Char → List Char → Bool
  | [], pat => startsWithL [] pat
  | c :: rest, pat => startsWithL (c :: rest) pat || includesL rest pat

/-- Containment test `includesL` against a string literal pattern. -/
def includesS (t : List Char) (pat : String) : Bool := includesL t pat.data

/-- Drop the longest whitespace run (the greedy `\\s*`). -/
def skipWsL : List Char → List Char
  | [] => []
  | c :: r => if isWsC c then skipWsL r else c :: r

/-- Split off the longest digit run (the greedy `\\d+`). -/
def takeDigitsL : List Char → List Char × List Char
  | [] => ([], [])
  | c :: r =>
    if isDigitC c then
      let p := takeDigitsL r
      (c :: p.1, p.2)
    else ([], c :: r)

/-- Numeric value of a digit run. -/
def digitsVal (l : List Char) : ℕ := l.foldl (fun acc c => 10 * acc + (c.toNat - 48)) 0

/-- Match the regex fragment `\\d+(?:\\.\\d+)?` at the head of the list and
return its `parseFloat` value and the rest. Greedy-with-backtracking
matching is deterministic here because no continuation of these regexes
can begin with a digit or a dot, so the maximal runs are the only
candidates. -/
def parseNumAt (s : List Char) : Option (ℚ × List Char) :=
  let p := takeDigitsL s
  if p.1.isEmpty then none
  else
    match p.2 with
    | '.' :: r2 =>
      let f := takeDigitsL r2
      if f.1.isEmpty then some ((digitsVal p.1 : ℚ), p.2)
      else some ((digitsVal p.1 : ℚ) + (digitsVal f.1 : ℚ) / ((10 ^ f.1.length : ℕ) : ℚ), f.2)
    | _ => some ((digitsVal p.1 : ℚ), p.2)

/-- Match a literal token at the head of the list, returning the rest. -/
def dropLit : List Char → List Char → Option (List Char)
  | [], s => some s
  | _ :: _, [] => none
  | l :: ls, c :: cs => if c = l then dropLit ls cs else none

/-- The `\\b` assertion between the last consumed character and the rest:
exactly one side is a word character (end of input is not one). -/
def wordBoundaryAfter (last : Char) (rest : List Char) : Bool :=
  isWordC last != (match rest with | [] => false | c :: _ => isWordC c)

/-- The unit alternation `(kcal|千卡|卡)` followed by `\\b`, alternatives
tried in source order (the text is already lowercased, covering the `i`
flag). Note that after `卡` the boundary only holds when the next
character is an ASCII word character, since `卡` itself is not one. -/
def kcalUnitAt (s : List Char) : Bool :=
  (match dropLit ['k', 'c', 'a', 'l'] s with
   | some r => wordBoundaryAfter 'l' r
   | none => false)
  || (match dropLit ['千', '卡'] s with
      | some r => wordBoundaryAfter '卡' r
      | none => false)
  || (match dropLit ['卡'] s with
      | some r => wordBoundaryAfter '卡' r
      | none => false)

/-- One match attempt of `/(\\d+(?:\\.\\d+)?)\\s*(kcal|千卡|卡)\\b/i` at a
fixed start position, returning the captured number. -/
def kcalMatchAt (s : List Char) : Option ℚ :=
  match parseNumAt s with
  | some (n, r1) => if kcalUnitAt (skipWsL r1) then some n else none
  | none => none

/-- Leftmost-match search: try the pattern at every start position, in
order — the semantics of `String.prototype.match`. -/
def scanL {α : Type} (f : List Char → Option α) : List Char → Option α
  | [] => f []
  | c :: rest =>
    match f (c :: rest) with
    | some v => some v
    | none => scanL f rest

/-- The direct-kcal regex search used by both `estimateKcalRangeFromText`
and `matchQuantityNear` (the source repeats the same literal regex). -/
def kcalFind (t : List Char) : Option ℚ := scanL kcalMatchAt t

/-- The gram unit `(g|克)` at the head of the list. -/
def gramUnitAt (s : List Char) : Bool :=
  match s with
  | c :: _ => c = 'g' || c = '克'
  | [] => false

/-- One attempt of `rg1 = key\\s*(\\d+(?:\\.\\d+)?)\\s*(g|克)`. -/
def gramsAt1 (key : List Char) (s : List Char) : Option ℚ :=
  match dropLit key s with
  | none => none
  | some r1 =>
    match parseNumAt (skipWsL r1) with
    | none => none
    | some (n, r2) => if gramUnitAt (skipWsL r2) then some n else none

/-- One attempt of `rg2 = (\\d+(?:\\.\\d+)?)\\s*(g|克)\\s*key`. -/
def gramsAt2 (key : List Char) (s : List Char) : Option ℚ :=
  match parseNumAt s with
  | none => none
  | some (n, r1) =>
    match skipWsL r1 with
    | [] => none
    | c :: r2 =>
      if c = 'g' || c = '克' then
        match dropLit key (skipWsL r2) with
        | some _ => some n
        | none => none
      else none

/-- The millilitre unit `(ml|毫升)` at the head of the list. -/
def mlUnitAt (s : List Char) : Option (List Char) :=
  match dropLit ['m', 'l'] s with
  | some r => some r
  | none => dropLit ['毫', '升'] s

/-- One attempt of `rm1 = key\\s*(\\d+(?:\\.\\d+)?)\\s*(ml|毫升)`. -/
def mlAt1 (key : List Char) (s : List Char) : Option ℚ :=
  match dropLit key s with
  | none => none
  | some r1 =>
    match parseNumAt (skipWsL r1) with
    | none => none
    | some (n, r2) =>
      match mlUnitAt (skipWsL r2) with
      | some _ => some n
      | none => none

/-- One attempt of `rm2 = (\\d+(?:\\.\\d+)?)\\s*(ml|毫升)\\s*key`. -/
def mlAt2 (key : List Char) (s : List Char) : Option ℚ :=
  match parseNumAt s with
  | none => none
  | some (n, r1) =>
    match mlUnitAt (skipWsL r1) with
    | none => none
    | some r2 =>
      match dropLit key (skipWsL r2) with
      | some _ => some n
      | none => none

/-- The `CN_NUM` table from `app.js` (Chinese number words, `半` = 0.5). -/
def CN_NUM : List (Char × ℚ) :=
  [('半', 1/2), ('一', 1), ('二', 2), ('两', 2), ('三', 3), ('四', 4), ('五', 5),
   ('六', 6), ('七', 7), ('八', 8), ('九', 9), ('十', 10)]

/-- The count alternation `(半|一|二|两|三|四|五|\\d+(?:\\.\\d+)?)` at the head
of the list; the captured token goes through `parseCNOrNumber`, which here
amounts to the `CN_NUM` lookup for the word alternatives and the numeral
value otherwise (always finite). -/
def countTokenAt (s : List Char) : Option (ℚ × List Char) :=
  match s with
  | [] => none
  | c :: r =>
    if c = '半' ∨ c = '一' ∨ c = '二' ∨ c = '两' ∨ c = '三' ∨ c = '四' ∨ c = '五' then
      some ((CN_NUM.lookup c).getD 0, r)
    else parseNumAt (c :: r)

/-- The unit alternation of `matchQuantityNear`. -/
def unitChars : List Char := ['碗', '个', '颗', '片', '杯', '包', '盒', '盘', '勺', '根', '份']

/-- One unit character at the head of the list. -/
def unitTokenAt (s : List Char) : Option (Char × List Char) :=
  match s with
  | [] => none
  | c :: r => if unitChars.contains c then some (c, r) else none

/-- One attempt of `rn1 = (count)\\s*(unit)\\s*key`. -/
def countAt1 (key : List Char) (s : List Char) : Option (ℚ × Char) :=
  match countTokenAt s with
  | none => none
  | some (n, r1) =>
    match unitTokenAt (skipWsL r1) with
    | none => none
    | some (u, r2) =>
      match dropLit key (skipWsL r2) with
      | some _ => some (n, u)
      | none => none

/-- One attempt of `rn2 = key\\s*(count)\\s*(unit)`. -/
def countAt2 (key : List Char) (s : List Char) : Option (ℚ × Char) :=
  match dropLit key s with
  | none => none
  | some r1 =>
    match countTokenAt (skipWsL r1) with
    | none => none
    | some (n, r2) =>
      match unitTokenAt (skipWsL r2) with
      | none => none
      | some (u, _) => some (n, u)

/-- The tagged quantity returned by `matchQuantityNear`
(`explicitness: "kcal" | "g" | "ml" | "count" | "default"`). -/
inductive QMatch where
  | qKcal (v : ℚ)
  | qG (v : ℚ)
  | qMl (v : ℚ)
  | qCount (n : ℚ) (unit : Char)
  | qDefault
deriving DecidableEq, Repr

/-- Source function `matchQuantityNear(text, key)` from `app.js`: the regexes are tried in
priority order — direct kcal, grams (`rg1` then `rg2`), millilitres,
count-with-unit (`rn1` then `rn2`) — falling back to the default portion. -/
def matchQuantityNear (t key : List Char) : QMatch :=
  match kcalFind t with
  | some v => .qKcal v
  | none =>
  match scanL (gramsAt1 key) t with
  | some g => .qG g
  | none =>
  match scanL (gramsAt2 key) t with
  | some g => .qG g
  | none =>
  match scanL (mlAt1 key) t with
  | some v => .qMl v
  | none =>
  match scanL (mlAt2 key) t with
  | some v => .qMl v
  | none =>
  match scanL (countAt1 key) t with
  | some (n, u) => .qCount n u
  | none =>
  match scanL (countAt2 key) t with
  | some (n, u) => .qCount n u
  | none => .qDefault

/-- A `FOOD_DB` entry: exactly one caloric-density basis is set per entry
(`per100g`, `per100ml` or `kcalEach`) together with its default portion. -/
structure FoodItem where
  name : String
  keys : List String
  per100g : Option ℚ := none
  per100ml : Option ℚ := none
  kcalEach : Option ℚ := none
  defaultG : Option ℚ := none
  defaultML : Option ℚ := none
  defaultEach : Option ℚ := none
  unit : Char
deriving DecidableEq, Repr

/-- JavaScript truthiness of an optional numeric field. -/
def truthyQ : Option ℚ → Bool
  | none => false
  | some v => v != 0

/-- The static `FOOD_DB` table from `app.js`. -/
def FOOD_DB : List FoodItem := [
  { name := "米饭", keys := ["米饭", "白米饭"], per100g := some 130, defaultG := some 180, unit := '碗' },
  { name := "面条", keys := ["面条", "面", "拉面", "乌冬", "粉"], per100g := some 140, defaultG := some 260, unit := '碗' },
  { name := "鸡胸", keys := ["鸡胸", "鸡胸肉"], per100g := some 165, defaultG := some 150, unit := '份' },
  { name := "鸡肉", keys := ["鸡肉", "白斩鸡", "烤鸡", "炸鸡"], per100g := some 210, defaultG := some 150, unit := '份' },
  { name := "牛肉", keys := ["牛肉"], per100g := some 250, defaultG := some 150, unit := '份' },
  { name := "猪肉", keys := ["猪肉", "五花肉"], per100g := some 290, defaultG := some 120, unit := '份' },
  { name := "鱼", keys := ["鱼", "三文鱼", "金枪鱼"], per100g := some 200, defaultG := some 160, unit := '份' },
  { name := "鸡蛋", keys := ["鸡蛋", "鸡蛋羹", "蛋"], kcalEach := some 70, defaultEach := some 1, unit := '个' },
  { name := "牛奶", keys := ["牛奶", "奶"], per100ml := some 60, defaultML := some 250, unit := '杯' },
  { name := "酸奶", keys := ["酸奶", "优格", "yogurt"], per100g := some 90, defaultG := some 150, unit := '杯' },
  { name := "面包", keys := ["面包", "吐司"], kcalEach := some 80, defaultEach := some 1, unit := '片' },
  { name := "香蕉", keys := ["香蕉"], kcalEach := some 105, defaultEach := some 1, unit := '根' },
  { name := "苹果", keys := ["苹果"], kcalEach := some 95, defaultEach := some 1, unit := '个' },
  { name := "饺子", keys := ["饺子"], kcalEach := some 40, defaultEach := some 10, unit := '个' },
  { name := "方便面", keys := ["方便面", "泡面"], kcalEach := some 450, defaultEach := some 1, unit := '包' },
  { name := "薯条", keys := ["薯条"], per100g := some 310, defaultG := some 120, unit := '份' },
  { name := "青菜", keys := ["青菜", "蔬菜", "西兰花", "生菜", "白菜"], per100g := some 25, defaultG := some 200, unit := '份' }]

/-- Source function `applyCookingMultiplier(text, kcal)` from `app.js`: the multipliers of
the present method keywords compose multiplicatively. -/
def applyCookingMultiplier (t : List Char) (kcal : ℚ) : ℚ :=
  kcal * (if includesS t "油炸" || includesS t "炸" then 1.25 else 1)
    * (if includesS t "煎" then 1.15 else 1)
    * (if includesS t "炒" then 1.12 else 1)
    * (if includesS t "红烧" || includesS t "酱" || includesS t "糖醋" then 1.10 else 1)
    * (if includesS t "奶油" || includesS t "芝士" || includesS t "起司" then 1.12 else 1)

/-- Source function `inferPortionSize(text)` from `app.js`: scales default portions. -/
def inferPortionSize (t : List Char) : ℚ :=
  (if includesS t "大" then 1.20 else 1) * (if includesS t "小" then 0.85 else 1)
    * (if includesS t "半" then 0.60 else 1)

/-- The final `else` (default portion) branch of the per-item estimate in
`estimateKcalRangeFromText`, returning `(mid, u)`; `(0, 0.30)` keeps the
initial `u = 0.30` when the item has no usable basis. -/
def defaultPortionMid (item : FoodItem) (portionMult : ℚ) : ℚ × ℚ :=
  if truthyQ item.kcalEach then
    (item.kcalEach.getD 0 * (if truthyQ item.defaultEach then item.defaultEach.getD 0 else 1), 0.20)
  else if truthyQ item.per100g && truthyQ item.defaultG then
    (item.defaultG.getD 0 * portionMult * item.per100g.getD 0 / 100, 0.28)
  else if truthyQ item.per100ml && truthyQ item.defaultML then
    (item.defaultML.getD 0 * portionMult * item.per100ml.getD 0 / 100, 0.22)
  else (0, 0.30)

/-- The `if… else if…` chain of the per-item estimate: each explicit
quantity whose value is falsy (0) falls through to the default-portion
branch, exactly as the source condition `q.explicitness === "…" && q.…`
does. The matched unit character is always present in a count match, so
`q.unit || item.unit || "份"` is the matched unit. -/
def quantityMid (item : FoodItem) (portionMult : ℚ) (q : QMatch) : ℚ × ℚ :=
  match q with
  | .qKcal v => if v ≠ 0 then (v, 0.05) else defaultPortionMid item portionMult
  | .qG g =>
    if g ≠ 0 then
      if truthyQ item.per100g then (g * item.per100g.getD 0 / 100, 0.08)
      else if truthyQ item.kcalEach then (item.kcalEach.getD 0 * (g / 50), 0.20)
      else (0, 0.20)
    else defaultPortionMid item portionMult
  | .qMl v =>
    if v ≠ 0 then
      if truthyQ item.per100ml then (v * item.per100ml.getD 0 / 100, 0.08)
      else (0, 0.30)
    else defaultPortionMid item portionMult
  | .qCount n u =>
    if n ≠ 0 then
      if truthyQ item.kcalEach then (item.kcalEach.getD 0 * n, 0.12)
      else if truthyQ item.per100g && truthyQ item.defaultG then
        (item.defaultG.getD 0 * n * portionMult * item.per100g.getD 0 / 100,
          if u = '碗' ∨ u = '盘' ∨ u = '杯' then 0.22 else 0.18)
      else (0, 0.30)
    else defaultPortionMid item portionMult
  | .qDefault => defaultPortionMid item portionMult

/-- The `for (const k of item.keys)` loop: the first alias whose lowercase
form occurs in the text. -/
def findKey (t : List Char) : List String → Option String
  | [] => none
  | k :: ks => if includesL t (k.data.map asciiLowerC) then some k else findKey t ks

/-- The per-item body of the `for (const item of FOOD_DB)` loop: quantity
extraction near the matched alias, the cooking multiplier on the midpoint,
and a `boundedRange` per item kept only when `mid > 0` (the display-only
`name`/`detail` fields are dropped). -/
def processItem (t : List Char) (portionMult : ℚ) (item : FoodItem) : Option KRange :=
  match findKey t item.keys with
  | none => none
  | some usedKey =>
    let q := matchQuantityNear t (usedKey.data.map asciiLowerC)
    let mu := quantityMid item portionMult q
    if 0 < mu.1 then some (boundedRange (applyCookingMultiplier t mu.1) mu.2)
    else none

/-- The bare-number fallback regex `/(\\d+(?:\\.\\d+)?)/`. -/
def numFind (t : List Char) : Option ℚ :=
  scanL (fun s => (parseNumAt s).map (fun p => p.1)) t

/-- Model of `String.prototype.trim` (ASCII whitespace). -/
def trimL (t : List Char) : List Char :=
  skipWsL ((skipWsL t.reverse).reverse)

/-- The result of `estimateKcalRangeFromText`: `{ok: false, reason}` or
`{ok: true, range, uncSuggested}` (the display-only `explanation` and
`followups` strings are not modeled). -/
inductive EstResult where
  | notOk (reason : String)
  | okRes (range : KRange) (uncSuggested : ℚ)
deriving DecidableEq, Repr

/-- The returned range, when the result is ok. -/
def resRange : EstResult → Option KRange
  | .notOk _ => none
  | .okRes r _ => some r

/-- Source function `estimateKcalRangeFromText(textRaw)` from `app.js`: lowercase, reject
all-whitespace text, short-circuit on the direct-kcal regex, otherwise
process every `FOOD_DB` item, and either sum the matched ranges (midpoint
recomputed from the summed bounds, aggregate uncertainty from the relative
half-width clamped into `[0.10, 0.45]`), fall back to a bare number with
uncertainty 0.35, or report no match. -/
def estimateKcalRangeFromText (textRaw : String) : EstResult :=
  let text := textRaw.data.map asciiLowerC
  if (trimL text).isEmpty then .notOk "empty"
  else
    match kcalFind text with
    | some mid => .okRes (boundedRange mid 0.05) 0.10
    | none =>
      let portionMult := inferPortionSize text
      let matched := FOOD_DB.filterMap (processItem text portionMult)
      match matched with
      | [] =>
        match numFind text with
        | some guess => .okRes (boundedRange guess 0.35) 0.35
        | none => .notOk "no_match"
      | _ :: _ =>
        let low := (matched.map KRange.low).sum
        let high := (matched.map KRange.high).sum
        let mid := jsRound (((low + high : ℤ) : ℚ) / 2)
        let uTot := clamp ((((high - low : ℤ) : ℚ)) / (max 1 (((high + low : ℤ) : ℚ) / 2)) / 2)
          0.10 0.45
        .okRes { low := low, high := high, mid := mid, u := uTot } (toFixed2 uTot)


/-- Parse exactly `n` ASCII digits, accumulating their value. -/
def parseDigitsAux : ℕ → ℕ → List Char → Option (ℕ × List Char)
  | 0, acc, s => some (acc, s)
  | _ + 1, _, [] => none
  | n + 1, acc, c :: r =>
    if isDigitC c then parseDigitsAux n (10 * acc + (c.toNat - 48)) r else none

/-- Days from the civil epoch 1970-01-01 for a proleptic Gregorian date
(the standard days-from-civil algorithm; all divisions on nonnegative
operands). -/
def daysFromCivil (y : ℤ) (mo d : ℕ) : ℤ :=
  let yy : ℤ := if mo ≤ 2 then y - 1 else y
  let era : ℤ := (if 0 ≤ yy then yy else yy - 399) / 400
  let yoe : ℤ := yy - era * 400
  let mp : ℤ := ((mo : ℤ) + 9) % 12
  let doy : ℤ := (153 * mp + 2) / 5 + (d : ℤ) - 1
  let doe : ℤ := yoe * 365 + yoe / 4 - yoe / 100 + doy
  era * 146097 + doe - 719468

/-- Epoch milliseconds of a broken-down UTC time with a zone offset in
minutes. -/
def calcMs (y mo d hh mi ss ms : ℕ) (off : ℤ) : ℤ :=
  daysFromCivil (y : ℤ) mo d * 86400000
    + ((hh * 3600000 + mi * 60000 + ss * 1000 + ms : ℕ) : ℤ)
    - off * 60000

/-- Milliseconds from a fraction-of-second digit run (first three digits). -/
def msOfFrac (fs : List Char) : ℕ :=
  digitsVal (fs.take 3) * 10 ^ (3 - min 3 fs.length)

/-- The optional `:ss(.sss)?` part of an ISO time. -/
def parseSec (r : List Char) : Option (ℕ × ℕ × List Char) :=
  match r with
  | [] => some (0, 0, [])
  | c :: r1 =>
    if c = ':' then
      match parseDigitsAux 2 0 r1 with
      | none => none
      | some (ss, r2) =>
        match r2 with
        | [] => some (ss, 0, [])
        | c2 :: r3 =>
          if c2 = '.' then
            match takeDigitsL r3 with
            | ([], _) => none
            | (fs, r4) => some (ss, msOfFrac fs, r4)
          else some (ss, 0, c2 :: r3)
    else some (0, 0, c :: r1)

/-- An explicit `±HH:mm` zone offset, in minutes. -/
def parseOff (r : List Char) : Option ℤ :=
  match parseDigitsAux 2 0 r with
  | none => none
  | some (hh, r1) =>
    if 23 < hh then none
    else
      match r1 with
      | [] => none
      | c :: r2 =>
        if c = ':' then
          match parseDigitsAux 2 0 r2 with
          | none => none
          | some (mm, r3) =>
            if 59 < mm then none
            else
              match r3 with
              | [] => some ((hh : ℤ) * 60 + mm)
              | _ :: _ => none
        else none

/-- The zone suffix of an ISO datetime: absent (modeled as UTC), `Z`, or
`±HH:mm`. -/
def parseZone (r : List Char) : Option ℤ :=
  match r with
  | [] => some 0
  | c :: r1 =>
    if c = 'Z' then (match r1 with | [] => some 0 | _ :: _ => none)
    else if c = '+' then parseOff r1
    else if c = '-' then (parseOff r1).map (fun x => -x)
    else none

/-- The optional `THH:mm(:ss(.sss)?)?(zone)?` tail after an ISO date. -/
def withTime (y mo d : ℕ) (r : List Char) : Option ℤ :=
  match r with
  | [] => some (calcMs y mo d 0 0 0 0 0)
  | c :: r1 =>
    if c = 'T' then
      match parseDigitsAux 2 0 r1 with
      | none => none
      | some (hh, r2) =>
        if 24 < hh then none
        else
          match r2 with
          | [] => none
          | c2 :: r3 =>
            if c2 = ':' then
              match parseDigitsAux 2 0 r3 with
              | none => none
              | some (mi, r4) =>
                if 59 < mi then none
                else
                  match parseSec r4 with
                  | none => none
                  | some (ss, ms, r5) =>
                    if 59 < ss then none
                    else
                      match parseZone r5 with
                      | none => none
                      | some off => some (calcMs y mo d hh mi ss ms off)
            else none
    else none

/-- The ISO `YYYY(-MM(-DD)?)?(T…)?` grammar over a character list. -/
def isoParse (l : List Char) : Option ℤ :=
  match parseDigitsAux 4 0 l with
  | none => none
  | some (y, r0) =>
    match r0 with
    | [] => some (calcMs y 1 1 0 0 0 0 0)
    | c :: r1 =>
      if c = '-' then
        match parseDigitsAux 2 0 r1 with
        | none => none
        | some (mo, r2) =>
          if mo < 1 ∨ 12 < mo then none
          else
            match r2 with
            | [] => some (calcMs y mo 1 0 0 0 0 0)
            | c2 :: r3 =>
              if c2 = '-' then
                match parseDigitsAux 2 0 r3 with
                | none => none
                | some (d, r4) =>
                  if d < 1 ∨ 31 < d then none else withTime y mo d r4
              else withTime y mo 1 r2
      else withTime y 1 1 r0

/-- Model of the host `Date.parse` used by `tryParseDate`. ECMA-262 only
specifies parsing of its Date Time String Format (the ISO 8601 profile
above); every other input format is implementation-defined and is modeled
as a parse failure, and a zoneless datetime (host-local time) is modeled
as UTC. Returns epoch milliseconds. -/
def dateParse (s : String) : Option ℤ := isoParse s.data

/-- The `s.replace(/\\//g, "-")` normalization in `tryParseDate`. -/
def slashNorm (s : String) : String :=
  String.mk (s.data.map (fun c => if c = '/' then '-' else c))

/-- Source function `tryParseDate(s)` from `app.js`: reject the empty string, try
`Date.parse` on the string, then on the string with forward slashes
replaced by hyphens, else fail. -/
def tryParseDate (s : String) : Option ℤ :=
  if s.data.isEmpty then none
  else
    match dateParse s with
    | some t => some t
    | none => dateParse (slashNorm s)


/-- Specification-side helper: the consecutive sample pairs of a list. -/
def pairSteps : List HRSample → List (HRSample × HRSample)
  | a :: b :: rest => (a, b) :: pairSteps (b :: rest)
  | _ => []

/-- Specification-side helper: the raw calorie sum over only the accepted
consecutive pairs (gap in `(0, 10]` minutes), each contributing the
per-minute rate of its earlier sample times the gap — skipped pairs
contribute nothing. -/
def acceptedKcal (sex : String) (w age : ℚ) (l : List HRSample) : ℚ :=
  (((pairSteps l).filter
      (fun p => decide (0 < (p.2.t - p.1.t) / 60000 ∧ (p.2.t - p.1.t) / 60000 ≤ 10))).map
    (fun p => kcalPerMin sex p.1.hr w age * ((p.2.t - p.1.t) / 60000))).sum

-- ===== THEOREMS =====

theorem jsRound_le (x : ℚ) : (jsRound x : ℚ) ≤ x + 0.5 := Int.floor_le _

theorem lt_jsRound (x : ℚ) : x - 0.5 < (jsRound x : ℚ) := by
  have h := Int.lt_floor_add_one (x + 0.5)
  unfold jsRound
  linarith

theorem jsRound_mono {x y : ℚ} (h : x ≤ y) : jsRound x ≤ jsRound y :=
  Int.floor_le_floor (by linarith)

theorem le_clamp (x a b : ℚ) : a ≤ clamp x a b := le_max_left _ _

theorem clamp_le {x a b : ℚ} (hab : a ≤ b) : clamp x a b ≤ b :=
  max_le hab (min_le_left _ _)

/-- For a nonnegative midpoint the two `max`es in `boundedRange` vanish:
the fields are plain roundings of `mid*(1∓u)` and `mid`. -/
theorem boundedRange_eq (mid u : ℚ) (hm : 0 ≤ mid) :
    (boundedRange mid u).low = jsRound (mid * (1 - clamp u 0.05 0.60))
    ∧ (boundedRange mid u).high = jsRound (mid * (1 + clamp u 0.05 0.60))
    ∧ (boundedRange mid u).mid = jsRound mid := by
  have h1 : 0.05 ≤ clamp u 0.05 0.60 := le_clamp _ _ _
  have h2 : clamp u 0.05 0.60 ≤ 0.60 := clamp_le (by norm_num)
  have hx : (0 : ℚ) ≤ mid * (1 - clamp u 0.05 0.60) := by nlinarith
  have hlow0 : (0 : ℤ) ≤ jsRound (mid * (1 - clamp u 0.05 0.60)) := by
    have h0 : jsRound (0 : ℚ) = 0 := by decide
    have : jsRound 0 ≤ jsRound (mid * (1 - clamp u 0.05 0.60)) := jsRound_mono hx
    rwa [h0] at this
  have hmono : jsRound (mid * (1 - clamp u 0.05 0.60))
      ≤ jsRound (mid * (1 + clamp u 0.05 0.60)) := by
    apply jsRound_mono
    nlinarith
  refine ⟨?_, ?_, rfl⟩
  · simp [boundedRange, max_eq_right hlow0]
  · simp [boundedRange, max_eq_right hlow0, max_eq_right hmono]

theorem jsRound_zero : jsRound 0 = 0 := by decide

/-- C1 (counterexample): at `mid = 1`, `u = 1` — inside the claimed domain
`mid ≥ 0`, `u ∈ [0, 1]` — `boundedRange` returns `low = 0`, `high = 2`,
`mid = 1`, so `high − low = 2` exceeds `1.2 × mid = 1.2`. -/
theorem boundedRange_spread_counterexample :
    (0 : ℚ) ≤ 1 ∧ (0 : ℚ) ≤ (1 : ℚ) ∧ (1 : ℚ) ≤ 1
    ∧ boundedRange 1 1 = { low := 0, high := 2, mid := 1, u := 0.60 }
    ∧ ¬ (((boundedRange 1 1).high : ℚ) - ((boundedRange 1 1).low : ℚ)
          ≤ 1.2 * ((boundedRange 1 1).mid : ℚ)) := by
  refine ⟨by norm_num, by norm_num, le_refl 1, by decide, by decide⟩

/-- C1 (amended): for every `mid ≥ 0` and every `u`, `boundedRange(mid, u)`
satisfies `0 ≤ low ≤ mid ≤ high` (`mid` being the returned rounded
midpoint) and `high − low ≤ 1.2 × mid + 1`: the claimed spread bound
`1.2 × mid` holds only up to one unit of rounding slack. -/
theorem boundedRange_bounds (mid u : ℚ) (hm : 0 ≤ mid) :
    0 ≤ (boundedRange mid u).low
    ∧ (boundedRange mid u).low ≤ (boundedRange mid u).mid
    ∧ (boundedRange mid u).mid ≤ (boundedRange mid u).high
    ∧ ((boundedRange mid u).high : ℚ) - ((boundedRange mid u).low : ℚ)
        ≤ 1.2 * mid + 1 := by
  obtain ⟨hl, hh, hd⟩ := boundedRange_eq mid u hm
  set uu := clamp u 0.05 0.60 with huu
  have h1 : 0.05 ≤ uu := le_clamp _ _ _
  have h2 : uu ≤ 0.60 := clamp_le (by norm_num)
  refine ⟨?_, ?_, ?_, ?_⟩
  · rw [hl, ← jsRound_zero]
    exact jsRound_mono (by nlinarith)
  · rw [hl, hd]
    exact jsRound_mono (by nlinarith)
  · rw [hd, hh]
    exact jsRound_mono (by nlinarith)
  · rw [hl, hh]
    have ha := jsRound_le (mid * (1 + uu))
    have hb := lt_jsRound (mid * (1 - uu))
    nlinarith

/-- C1 (witness): the amended bounds at the concrete input `(100, 0.3)`. -/
theorem boundedRange_bounds_witness :
    0 ≤ (boundedRange 100 0.3).low
    ∧ (boundedRange 100 0.3).low ≤ (boundedRange 100 0.3).mid
    ∧ (boundedRange 100 0.3).mid ≤ (boundedRange 100 0.3).high
    ∧ ((boundedRange 100 0.3).high : ℚ) - ((boundedRange 100 0.3).low : ℚ)
        ≤ 1.2 * 100 + 1 :=
  boundedRange_bounds 100 0.3 (by norm_num)

/-- C8: for every `mid ≥ 0` and every `u`, recomputing
`round((low + high) / 2)` from the range returned by `boundedRange(mid, u)`
lands within ±1 of the returned rounded midpoint. -/
theorem boundedRange_roundtrip (mid u : ℚ) (hm : 0 ≤ mid) :
    |jsRound ((((boundedRange mid u).low : ℚ) + ((boundedRange mid u).high : ℚ)) / 2)
        - (boundedRange mid u).mid| ≤ 1 := by
  obtain ⟨hl, hh, hd⟩ := boundedRange_eq mid u hm
  rw [hl, hh, hd]
  set uu := clamp u 0.05 0.60 with huu
  set L := jsRound (mid * (1 - uu)) with hL
  set H := jsRound (mid * (1 + uu)) with hH
  set M := jsRound mid with hM
  have hLu : (L : ℚ) ≤ mid * (1 - uu) + 0.5 := jsRound_le _
  have hLl : mid * (1 - uu) - 0.5 < (L : ℚ) := lt_jsRound _
  have hHu : (H : ℚ) ≤ mid * (1 + uu) + 0.5 := jsRound_le _
  have hHl : mid * (1 + uu) - 0.5 < (H : ℚ) := lt_jsRound _
  have hMu : (M : ℚ) ≤ mid + 0.5 := jsRound_le _
  have hMl : mid - 0.5 < (M : ℚ) := lt_jsRound _
  set R := jsRound (((L : ℚ) + (H : ℚ)) / 2) with hR
  have hRu : (R : ℚ) ≤ ((L : ℚ) + (H : ℚ)) / 2 + 0.5 := jsRound_le _
  have hRl : ((L : ℚ) + (H : ℚ)) / 2 - 0.5 < (R : ℚ) := lt_jsRound _
  rw [abs_le]
  constructor
  · have hq : (M : ℚ) - (R : ℚ) < 2 := by nlinarith
    have hz : M - R < 2 := by exact_mod_cast hq
    omega
  · have hq : (R : ℚ) - (M : ℚ) < 2 := by nlinarith
    have hz : R - M < 2 := by exact_mod_cast hq
    omega

/-- C8 (witness): the round-trip property at the concrete input
`(234, 0.28)`. -/
theorem boundedRange_roundtrip_witness :
    |jsRound ((((boundedRange 234 0.28).low : ℚ) + ((boundedRange 234 0.28).high : ℚ)) / 2)
        - (boundedRange 234 0.28).mid| ≤ 1 :=
  boundedRange_roundtrip 234 0.28 (by norm_num)

/-- C2: `autoMergeMeal` returns the other estimate when one kcal is
zero/absent, the rounded average when both are positive and within 15% of
the larger, and the first estimate with uncertainty
`clamp(0.2 + relDiff, 0.2, 0.95)` when they differ by more; concretely,
merging 100 and 105 gives 103 and merging 100 and 400 gives 100 with
uncertainty ≥ 0.5. -/
theorem autoMergeMeal_reconcile (m1 m2 : MealIn) :
    (m1.kcal ≤ 0 → 0 ≤ m2.kcal → (autoMergeMeal m1 m2).kcal = jsRound m2.kcal)
    ∧ (m2.kcal ≤ 0 → 0 ≤ m1.kcal → (autoMergeMeal m1 m2).kcal = jsRound m1.kcal)
    ∧ (0 < m1.kcal → 0 < m2.kcal →
        |m1.kcal - m2.kcal| ≤ 0.15 * max m1.kcal m2.kcal →
        (autoMergeMeal m1 m2).kcal = jsRound ((m1.kcal + m2.kcal) / 2))
    ∧ (0 < m1.kcal → 0 < m2.kcal →
        0.15 * max m1.kcal m2.kcal < |m1.kcal - m2.kcal| →
        (autoMergeMeal m1 m2).kcal = jsRound m1.kcal
        ∧ (autoMergeMeal m1 m2).unc
            = clamp (0.2 + |m1.kcal - m2.kcal| / max m1.kcal m2.kcal) 0.2 0.95)
    ∧ (autoMergeMeal ⟨100, 0, 0, 0⟩ ⟨105, 0, 0, 0⟩).kcal = 103
    ∧ (autoMergeMeal ⟨100, 0, 0, 0⟩ ⟨400, 0, 0, 0⟩).kcal = 100
    ∧ 0.5 ≤ (autoMergeMeal ⟨100, 0, 0, 0⟩ ⟨400, 0, 0, 0⟩).unc := by
  refine ⟨?_, ?_, ?_, ?_, by decide, by decide, by decide⟩
  · intro hm1 hm2
    by_cases h2 : 0 < m2.kcal
    · have hg : ¬(¬ 0 < m1.kcal ∧ ¬ 0 < m2.kcal) := fun h => h.2 h2
      have hnot : ¬(m1.kcal ≤ 0 ∧ m2.kcal ≤ 0) := fun h => absurd h2 (not_lt.2 h.2)
      have hp : pick m1.kcal m2.kcal = m2.kcal := by
        unfold pick
        rw [if_neg hnot, if_pos hm1]
      simp only [autoMergeMeal, if_neg hg, fmtK, hp]
    · have hm2e : m2.kcal = 0 := le_antisymm (not_lt.1 h2) hm2
      have hg : (¬ 0 < m1.kcal ∧ ¬ 0 < m2.kcal) := ⟨not_lt.2 hm1, h2⟩
      unfold autoMergeMeal
      rw [if_pos hg]
      simp [hm2e, jsRound_zero]
  · intro hm2 hm1
    by_cases h1 : 0 < m1.kcal
    · have hg : ¬(¬ 0 < m1.kcal ∧ ¬ 0 < m2.kcal) := fun h => h.1 h1
      have hp : pick m1.kcal m2.kcal = m1.kcal := by
        unfold pick
        rw [if_neg (fun h => absurd h1 (not_lt.2 h.1)), if_neg (not_le.2 h1),
          if_pos hm2]
      simp only [autoMergeMeal, if_neg hg, fmtK, hp]
    · have hm1e : m1.kcal = 0 := le_antisymm (not_lt.1 h1) hm1
      have hg : (¬ 0 < m1.kcal ∧ ¬ 0 < m2.kcal) := ⟨h1, not_lt.2 hm2⟩
      unfold autoMergeMeal
      rw [if_pos hg]
      simp [hm1e, jsRound_zero]
  · intro h1 h2 hle
    have hg : ¬(¬ 0 < m1.kcal ∧ ¬ 0 < m2.kcal) := fun h => h.1 h1
    have hmax : 0 < max m1.kcal m2.kcal := lt_max_iff.2 (Or.inl h1)
    have hdiv : |m1.kcal - m2.kcal| / max m1.kcal m2.kcal ≤ 0.15 :=
      (div_le_iff₀ hmax).2 hle
    have hp : pick m1.kcal m2.kcal = (m1.kcal + m2.kcal) / 2 := by
      unfold pick
      rw [if_neg (fun h => absurd h1 (not_lt.2 h.1)), if_neg (not_le.2 h1),
        if_neg (not_le.2 h2), if_pos hdiv]
    simp only [autoMergeMeal, if_neg hg, fmtK, hp]
  · intro h1 h2 hgt
    have hg : ¬(¬ 0 < m1.kcal ∧ ¬ 0 < m2.kcal) := fun h => h.1 h1
    have hmax : 0 < max m1.kcal m2.kcal := lt_max_iff.2 (Or.inl h1)
    have hdiv : ¬(|m1.kcal - m2.kcal| / max m1.kcal m2.kcal ≤ 0.15) := by
      rw [div_le_iff₀ hmax]
      exact not_le.2 hgt
    have hp : pick m1.kcal m2.kcal = m1.kcal := by
      unfold pick
      rw [if_neg (fun h => absurd h1 (not_lt.2 h.1)), if_neg (not_le.2 h1),
        if_neg (not_le.2 h2), if_neg hdiv]
    constructor
    · simp only [autoMergeMeal, if_neg hg, fmtK, hp]
    · simp only [autoMergeMeal, if_neg hg, if_pos (And.intro h1 h2)]

/-- C2 (witness): the within-15% clause at the concrete pair (100, 104):
the merged kcal is the rounded average. -/
theorem autoMergeMeal_reconcile_witness :
    (autoMergeMeal ⟨100, 0, 0, 0⟩ ⟨104, 0, 0, 0⟩).kcal
      = jsRound (((⟨100, 0, 0, 0⟩ : MealIn).kcal + (⟨104, 0, 0, 0⟩ : MealIn).kcal) / 2) :=
  (autoMergeMeal_reconcile ⟨100, 0, 0, 0⟩ ⟨104, 0, 0, 0⟩).2.2.1
    (by decide) (by decide) (by decide)

/-- C10: when exactly one of the two estimates has positive kcal the merged
uncertainty is the fixed constant 0.45, and when neither does the merged
result is the all-zero record with uncertainty 0.35. -/
theorem autoMergeMeal_unc_defaults (m1 m2 : MealIn) :
    (0 < m1.kcal → ¬ 0 < m2.kcal → (autoMergeMeal m1 m2).unc = 0.45)
    ∧ (¬ 0 < m1.kcal → 0 < m2.kcal → (autoMergeMeal m1 m2).unc = 0.45)
    ∧ (¬ 0 < m1.kcal → ¬ 0 < m2.kcal →
        autoMergeMeal m1 m2 = { kcal := 0, p := 0, c := 0, f := 0, unc := 0.35 }) := by
  refine ⟨?_, ?_, ?_⟩
  · intro h1 h2
    have hg : ¬(¬ 0 < m1.kcal ∧ ¬ 0 < m2.kcal) := fun h => h.1 h1
    simp only [autoMergeMeal, if_neg hg, if_neg (fun h : _ ∧ _ => h2 h.2)]
  · intro h1 h2
    have hg : ¬(¬ 0 < m1.kcal ∧ ¬ 0 < m2.kcal) := fun h => h.2 h2
    simp only [autoMergeMeal, if_neg hg, if_neg (fun h : _ ∧ _ => h1 h.1)]
  · intro h1 h2
    simp only [autoMergeMeal, if_pos (And.intro h1 h2)]

/-- C10 (witness): only the first estimate present (120 vs 0) yields
uncertainty 0.45. -/
theorem autoMergeMeal_unc_defaults_witness :
    (autoMergeMeal ⟨120, 0, 0, 0⟩ ⟨0, 0, 0, 0⟩).unc = 0.45 :=
  (autoMergeMeal_unc_defaults ⟨120, 0, 0, 0⟩ ⟨0, 0, 0, 0⟩).1 (by decide) (by decide)

theorem pairAccum_minutes (sex : String) (w age : ℚ) :
    ∀ l : List HRSample, (pairAccum sex w age l).2.1 = acceptedSum l := by
  intro l
  induction l with
  | nil => simp [pairAccum, acceptedSum, gaps]
  | cons a rest ih =>
    cases rest with
    | nil => simp [pairAccum, acceptedSum, gaps]
    | cons b r2 =>
      have hgap : gaps (a :: b :: r2) = (b.t - a.t) / 60000 :: gaps (b :: r2) := rfl
      by_cases h : 0 < (b.t - a.t) / 60000 ∧ (b.t - a.t) / 60000 ≤ 10
      · have hb : decide (0 < (b.t - a.t) / 60000 ∧ (b.t - a.t) / 60000 ≤ 10) = true :=
          decide_eq_true h
        simp only [pairAccum]
        rw [if_pos h]
        show (b.t - a.t) / 60000 + (pairAccum sex w age (b :: r2)).2.1 = _
        rw [ih]
        unfold acceptedSum
        rw [hgap, List.filter_cons, if_pos hb, List.sum_cons]
      · have hb : decide (0 < (b.t - a.t) / 60000 ∧ (b.t - a.t) / 60000 ≤ 10) = false :=
          decide_eq_false h
        simp only [pairAccum]
        rw [if_neg h, ih]
        unfold acceptedSum
        rw [hgap, List.filter_cons]
        simp only [hb, Bool.false_eq_true, if_false]

theorem gaps_sum : ∀ l : List HRSample, (gaps l).sum = spanMinutes l := by
  intro l
  induction l with
  | nil => simp [gaps, spanMinutes]
  | cons a rest ih =>
    cases rest with
    | nil => simp [gaps, spanMinutes]
    | cons b r2 =>
      simp only [gaps, List.sum_cons, ih, spanMinutes, List.getLastD_cons]
      ring

theorem sorted_gaps_nonneg :
    ∀ l : List HRSample, List.Pairwise (fun a b : HRSample => a.t ≤ b.t) l →
      ∀ x ∈ gaps l, 0 ≤ x := by
  intro l
  induction l with
  | nil => intro _ x hx; simp [gaps] at hx
  | cons a rest ih =>
    cases rest with
    | nil => intro _ x hx; simp [gaps] at hx
    | cons b r2 =>
      intro hp x hx
      rw [List.pairwise_cons] at hp
      rcases (by simpa [gaps] using hx : x = (b.t - a.t) / 60000 ∨ x ∈ gaps (b :: r2)) with h | h
      · subst h
        have hab : a.t ≤ b.t := hp.1 b (List.mem_cons_self _ _)
        apply div_nonneg (by linarith) (by norm_num)
      · exact ih hp.2 x h

theorem filterSum_le_sum (p : ℚ → Bool) :
    ∀ g : List ℚ, (∀ x ∈ g, 0 ≤ x) → (g.filter p).sum ≤ g.sum := by
  intro g
  induction g with
  | nil => intro _; simp
  | cons x xs ih =>
    intro hnn
    have hx : 0 ≤ x := hnn x (List.mem_cons_self _ _)
    have ht : (xs.filter p).sum ≤ xs.sum := ih fun y hy => hnn y (List.mem_cons_of_mem _ hy)
    rw [List.filter_cons]
    by_cases h : p x = true
    · rw [if_pos h]
      simp only [List.sum_cons]
      linarith
    · rw [if_neg h]
      simp only [List.sum_cons]
      linarith

theorem filterSum_gap :
    ∀ g : List ℚ, (∀ x ∈ g, 0 ≤ x) → ∀ y ∈ g, 20 ≤ y →
      ((g.filter (fun dt => decide (0 < dt ∧ dt ≤ 10))).sum) + 20 ≤ g.sum := by
  intro g
  induction g with
  | nil => intro _ y hy; simp at hy
  | cons x xs ih =>
    intro hnn y hy h20
    have hx : 0 ≤ x := hnn x (List.mem_cons_self _ _)
    have hnt : ∀ z ∈ xs, 0 ≤ z := fun z hz => hnn z (List.mem_cons_of_mem _ hz)
    rcases List.mem_cons.1 hy with rfl | hmem
    · have hpx : decide ((0 : ℚ) < y ∧ y ≤ 10) = false := by
        apply decide_eq_false
        rintro ⟨-, hle⟩
        linarith
      rw [List.filter_cons]
      simp only [hpx, Bool.false_eq_true, if_false, List.sum_cons]
      have := filterSum_le_sum (fun dt => decide (0 < dt ∧ dt ≤ 10)) xs hnt
      linarith
    · have ht := ih hnt y hmem h20
      rw [List.filter_cons]
      by_cases h : (0 : ℚ) < x ∧ x ≤ 10
      · rw [if_pos (decide_eq_true h)]
        simp only [List.sum_cons]
        linarith
      · have hb : decide ((0 : ℚ) < x ∧ x ≤ 10) = false := decide_eq_false h
        simp only [hb, Bool.false_eq_true, if_false, List.sum_cons]
        linarith

theorem series_minutes_eq (sex : String) (series : List HRSample) (w age cf : ℚ)
    (h2 : 2 ≤ series.length) (hw : w ≠ 0) (ha : age ≠ 0) :
    (estimateWorkoutKcalFromSeries sex series w age cf).minutes
      = jsRound (acceptedSum (sortByTime series)) := by
  have hg : ¬(series.length < 2 ∨ w = 0 ∨ age = 0) := by
    push_neg
    exact ⟨h2, hw, ha⟩
  have hlen : (sortByTime series).length = series.length :=
    List.length_insertionSort _ _
  have hg2 : ¬((sortByTime series).length < 2) := by
    rw [hlen]; exact not_lt.2 h2
  simp only [estimateWorkoutKcalFromSeries, if_neg hg, if_neg hg2]
  rw [pairAccum_minutes]

theorem pairAccum_kcal (sex : String) (w age : ℚ) :
    ∀ l : List HRSample, (pairAccum sex w age l).1 = acceptedKcal sex w age l := by
  intro l
  induction l with
  | nil => simp [pairAccum, acceptedKcal, pairSteps]
  | cons a rest ih =>
    cases rest with
    | nil => simp [pairAccum, acceptedKcal, pairSteps]
    | cons b r2 =>
      have hstep : pairSteps (a :: b :: r2) = (a, b) :: pairSteps (b :: r2) := rfl
      by_cases h : 0 < (b.t - a.t) / 60000 ∧ (b.t - a.t) / 60000 ≤ 10
      · have hb : decide (0 < (b.t - a.t) / 60000 ∧ (b.t - a.t) / 60000 ≤ 10) = true :=
          decide_eq_true h
        simp only [pairAccum]
        rw [if_pos h]
        show kcalPerMin sex a.hr w age * ((b.t - a.t) / 60000)
            + (pairAccum sex w age (b :: r2)).1 = _
        rw [ih]
        unfold acceptedKcal
        rw [hstep, List.filter_cons, if_pos hb, List.map_cons, List.sum_cons]
      · have hb : decide (0 < (b.t - a.t) / 60000 ∧ (b.t - a.t) / 60000 ≤ 10) = false :=
          decide_eq_false h
        simp only [pairAccum]
        rw [if_neg h, ih]
        unfold acceptedKcal
        rw [hstep, List.filter_cons]
        simp only [hb, Bool.false_eq_true, if_false]

theorem series_kcal_eq (sex : String) (series : List HRSample) (w age cf : ℚ)
    (h2 : 2 ≤ series.length) (hw : w ≠ 0) (ha : age ≠ 0) :
    (estimateWorkoutKcalFromSeries sex series w age cf).kcal
      = max 0 (jsRound (acceptedKcal sex w age (sortByTime series)
          * (if cf = 0 then 1 else cf))) := by
  have hg : ¬(series.length < 2 ∨ w = 0 ∨ age = 0) := by
    push_neg
    exact ⟨h2, hw, ha⟩
  have hlen : (sortByTime series).length = series.length :=
    List.length_insertionSort _ _
  have hg2 : ¬((sortByTime series).length < 2) := by
    rw [hlen]; exact not_lt.2 h2
  simp only [estimateWorkoutKcalFromSeries, if_neg hg, if_neg hg2]
  rw [pairAccum_kcal]

/-- C3: each consecutive pair of time-sorted samples with a non-positive or
over-10-minute gap contributes neither calories nor minutes — the returned
minutes is the rounded sum of only the accepted intervals and the returned
kcal is the (scaled, rounded) calorie sum over only the accepted pairs; a
series whose sorted samples contain a gap of 20 minutes or more returns
minutes strictly below the first-to-last wall-clock span; and with fewer
than two samples (or zero weight/age) the result is
`{kcal 0, minutes 0, avgHr 0}`. -/
theorem estimateWorkoutKcalFromSeries_spec (sex : String) (series : List HRSample)
    (w age cf : ℚ) :
    (series.length < 2 ∨ w = 0 ∨ age = 0 →
      estimateWorkoutKcalFromSeries sex series w age cf = ⟨0, 0, 0⟩)
    ∧ (2 ≤ series.length → w ≠ 0 → age ≠ 0 →
      (estimateWorkoutKcalFromSeries sex series w age cf).minutes
        = jsRound (acceptedSum (sortByTime series)))
    ∧ (2 ≤ series.length → w ≠ 0 → age ≠ 0 →
      (estimateWorkoutKcalFromSeries sex series w age cf).kcal
        = max 0 (jsRound (acceptedKcal sex w age (sortByTime series)
            * (if cf = 0 then 1 else cf))))
    ∧ (2 ≤ series.length → w ≠ 0 → age ≠ 0 →
      ∀ dt ∈ gaps (sortByTime series), 20 ≤ dt →
        ((estimateWorkoutKcalFromSeries sex series w age cf).minutes : ℚ)
          < spanMinutes (sortByTime series)) := by
  refine ⟨?_, ?_, ?_, ?_⟩
  · intro h
    simp only [estimateWorkoutKcalFromSeries, if_pos h]
  · intro h2 hw ha
    exact series_minutes_eq sex series w age cf h2 hw ha
  · intro h2 hw ha
    exact series_kcal_eq sex series w age cf h2 hw ha
  · intro h2 hw ha dt hdt h20
    rw [series_minutes_eq sex series w age cf h2 hw ha]
    have hsorted : List.Pairwise (fun a b : HRSample => a.t ≤ b.t) (sortByTime series) :=
      List.sorted_insertionSort _ _
    have hnn := sorted_gaps_nonneg (sortByTime series) hsorted
    have hgap : acceptedSum (sortByTime series) + 20 ≤ (gaps (sortByTime series)).sum :=
      filterSum_gap (gaps (sortByTime series)) hnn dt hdt h20
    have hle := jsRound_le (acceptedSum (sortByTime series))
    have hspan := gaps_sum (sortByTime series)
    rw [hspan] at hgap
    linarith

/-- C3 (witness): a three-sample series with one 5-minute and one 25-minute
gap: the returned kcal is the rounded accepted-pairs calorie sum, and the
returned minutes (5) is strictly below the 30-minute span. -/
theorem estimateWorkoutKcalFromSeries_spec_witness :
    (estimateWorkoutKcalFromSeries "male"
        [⟨0, 100⟩, ⟨300000, 120⟩, ⟨1800000, 110⟩] 70 30 1).kcal
      = max 0 (jsRound (acceptedKcal "male" 70 30
          (sortByTime [⟨0, 100⟩, ⟨300000, 120⟩, ⟨1800000, 110⟩])
          * (if (1 : ℚ) = 0 then 1 else 1)))
    ∧ ((estimateWorkoutKcalFromSeries "male"
        [⟨0, 100⟩, ⟨300000, 120⟩, ⟨1800000, 110⟩] 70 30 1).minutes : ℚ)
      < spanMinutes (sortByTime [⟨0, 100⟩, ⟨300000, 120⟩, ⟨1800000, 110⟩]) :=
  ⟨(estimateWorkoutKcalFromSeries_spec "male"
      [⟨0, 100⟩, ⟨300000, 120⟩, ⟨1800000, 110⟩] 70 30 1).2.2.1
    (by decide) (by norm_num) (by norm_num),
   (estimateWorkoutKcalFromSeries_spec "male"
      [⟨0, 100⟩, ⟨300000, 120⟩, ⟨1800000, 110⟩] 70 30 1).2.2.2
    (by decide) (by norm_num) (by norm_num) 25 (by decide) (by norm_num)⟩

/-- C6 (counterexample): every input strictly positive (male, average HR
60 bpm, 30 minutes, 50 kg, age 20, calFactor 1) yet the returned kcal is
0: the Keytel regression value is negative there and the code floors the
per-minute rate at 0, not at a small positive value. -/
theorem estimateWorkoutKcalFromAvgHR_counterexample :
    (0 : ℚ) < 60 ∧ (0 : ℚ) < 30 ∧ (0 : ℚ) < 50 ∧ (0 : ℚ) < 20 ∧ (0 : ℚ) < 1
    ∧ ¬ 0 < estimateWorkoutKcalFromAvgHR "male" 60 30 50 20 1 := by
  decide

/-- C6 (amended): the per-minute rate is floored at zero, so the point
estimate is always ≥ 0 (but can be 0 even for strictly positive inputs),
and a zero heart rate, minutes, weight or age yields 0 rather than an
error. -/
theorem estimateWorkoutKcalFromAvgHR_floor (sex : String)
    (hrAvg minutes weightKg age calFactor : ℚ) :
    0 ≤ estimateWorkoutKcalFromAvgHR sex hrAvg minutes weightKg age calFactor
    ∧ (hrAvg = 0 ∨ minutes = 0 ∨ weightKg = 0 ∨ age = 0 →
        estimateWorkoutKcalFromAvgHR sex hrAvg minutes weightKg age calFactor = 0)
    ∧ (kcalPerMin sex hrAvg weightKg age = 0 →
        estimateWorkoutKcalFromAvgHR sex hrAvg minutes weightKg age calFactor = 0) := by
  refine ⟨?_, ?_, ?_⟩
  · unfold estimateWorkoutKcalFromAvgHR
    split
    · exact le_refl 0
    · exact le_max_left 0 _
  · intro h
    unfold estimateWorkoutKcalFromAvgHR
    rw [if_pos h]
  · intro h
    unfold estimateWorkoutKcalFromAvgHR
    split
    · rfl
    · rw [h]
      simp [jsRound_zero]

/-- C6 (witness): the floored-at-zero clause at a concrete input with
positive minutes. -/
theorem estimateWorkoutKcalFromAvgHR_floor_witness :
    estimateWorkoutKcalFromAvgHR "male" 60 45 50 20 1 = 0 :=
  (estimateWorkoutKcalFromAvgHR_floor "male" 60 45 50 20 1).2.2 (by decide)

/-- C9: `trimpBanister` returns 0 whenever minutes, avgHr, hrRest or hrMax
is zero or `hrMax − hrRest ≤ 0`; otherwise the heart-rate-reserve fraction
is clamped into `[0, 1.2]` and the score is
`round(minutes × HRr × a × e^(b·HRr))` with `(a, b) = (0.86, 1.67)` for
female and `(0.64, 1.92)` otherwise. -/
theorem trimpBanister_spec (minutes hrAvg hrRest hrMax : ℚ) (sex : String) :
    (minutes = 0 ∨ hrAvg = 0 ∨ hrRest = 0 ∨ hrMax = 0 →
      trimpBanister minutes hrAvg hrRest hrMax sex = 0)
    ∧ (hrMax - hrRest ≤ 0 → trimpBanister minutes hrAvg hrRest hrMax sex = 0)
    ∧ (minutes ≠ 0 → hrAvg ≠ 0 → hrRest ≠ 0 → hrMax ≠ 0 → ¬ hrMax - hrRest ≤ 0 →
        0 ≤ clamp ((hrAvg - hrRest) / (hrMax - hrRest)) 0 1.2
        ∧ clamp ((hrAvg - hrRest) / (hrMax - hrRest)) 0 1.2 ≤ 1.2
        ∧ trimpBanister minutes hrAvg hrRest hrMax sex
            = jsRoundR (((minutes * clamp ((hrAvg - hrRest) / (hrMax - hrRest)) 0 1.2
                  * (if sex = "female" then 0.86 else 0.64) : ℚ) : ℝ)
                * Real.exp (((if sex = "female" then (1.67 : ℚ) else 1.92)
                    * clamp ((hrAvg - hrRest) / (hrMax - hrRest)) 0 1.2 : ℚ) : ℝ))) := by
  refine ⟨?_, ?_, ?_⟩
  · intro h
    unfold trimpBanister
    rw [if_pos h]
  · intro h
    unfold trimpBanister
    by_cases hg : minutes = 0 ∨ hrAvg = 0 ∨ hrRest = 0 ∨ hrMax = 0
    · rw [if_pos hg]
    · rw [if_neg hg, if_pos h]
  · intro h1 h2 h3 h4 h5
    refine ⟨le_clamp _ _ _, clamp_le (by norm_num), ?_⟩
    have hg : ¬(minutes = 0 ∨ hrAvg = 0 ∨ hrRest = 0 ∨ hrMax = 0) := by
      push_neg
      exact ⟨h1, h2, h3, h4⟩
    unfold trimpBanister
    rw [if_neg hg, if_neg h5]

/-- C9 (witness): the main branch at minutes 30, avgHr 150, hrRest 60,
hrMax 190, male. -/
theorem trimpBanister_spec_witness :
    trimpBanister 30 150 60 190 "male"
      = jsRoundR (((30 * clamp ((150 - 60) / (190 - 60)) 0 1.2
            * (if ("male" : String) = "female" then 0.86 else 0.64) : ℚ) : ℝ)
          * Real.exp ((((if ("male" : String) = "female" then (1.67 : ℚ) else 1.92)
              * clamp ((150 - 60) / (190 - 60)) 0 1.2 : ℚ) : ℝ))) :=
  ((trimpBanister_spec 30 150 60 190 "male").2.2 (by norm_num) (by norm_num)
    (by norm_num) (by norm_num) (by norm_num)).2.2

theorem parseNumAt_head {s : List Char} {p : ℚ × List Char}
    (h : parseNumAt s = some p) : ∃ c r, s = c :: r ∧ isDigitC c = true := by
  cases s with
  | nil => simp [parseNumAt, takeDigitsL] at h
  | cons c r =>
    by_cases hd : isDigitC c = true
    · exact ⟨c, r, rfl, hd⟩
    · rw [Bool.not_eq_true] at hd
      simp [parseNumAt, takeDigitsL, hd] at h

theorem kcalMatchAt_head {s : List Char} {v : ℚ} (h : kcalMatchAt s = some v) :
    ∃ c r, s = c :: r ∧ isDigitC c = true := by
  unfold kcalMatchAt at h
  cases hp : parseNumAt s with
  | none => rw [hp] at h; exact absurd h (by simp)
  | some p => exact parseNumAt_head hp

theorem scanL_mem {α : Type} (f : List Char → Option α) :
    ∀ (t : List Char) (v : α), scanL f t = some v →
      ∃ s, f s = some v ∧ ∀ c ∈ s, c ∈ t := by
  intro t
  induction t with
  | nil =>
    intro v h
    exact ⟨[], by simpa [scanL] using h, by simp⟩
  | cons c rest ih =>
    intro v h
    unfold scanL at h
    cases hf : f (c :: rest) with
    | some w =>
      rw [hf] at h
      have hw : w = v := by simpa using h
      exact ⟨c :: rest, by rw [hf, hw], fun d hd => hd⟩
    | none =>
      rw [hf] at h
      obtain ⟨s, hs, hsub⟩ := ih v h
      exact ⟨s, hs, fun d hd => List.mem_cons_of_mem _ (hsub d hd)⟩

theorem digit_not_ws {c : Char} (h : isDigitC c = true) : isWsC c = false := by
  cases hb : isWsC c
  · rfl
  · exfalso
    simp only [isWsC, Bool.or_eq_true, decide_eq_true_eq] at hb
    rcases hb with ((((h1 | h1) | h1) | h1) | h1) | h1 <;> subst h1 <;>
      exact absurd h (by decide)

theorem mem_skipWsL {c : Char} (hc : isWsC c = false) :
    ∀ {t : List Char}, c ∈ t → c ∈ skipWsL t := by
  intro t
  induction t with
  | nil => intro h; simp at h
  | cons x r ih =>
    intro hm
    unfold skipWsL
    by_cases hx : isWsC x = true
    · rw [if_pos hx]
      rcases List.mem_cons.1 hm with rfl | hr
      · rw [hc] at hx; exact absurd hx (by simp)
      · exact ih hr
    · rw [Bool.not_eq_true] at hx
      rw [if_neg (by rw [hx]; simp)]
      exact hm

theorem trimL_ne_nil {c : Char} {t : List Char} (hct : c ∈ t)
    (hc : isWsC c = false) : (trimL t).isEmpty = false := by
  have h1 : c ∈ t.reverse := List.mem_reverse.2 hct
  have h2 : c ∈ skipWsL t.reverse := mem_skipWsL hc h1
  have h3 : c ∈ (skipWsL t.reverse).reverse := List.mem_reverse.2 h2
  have h4 : c ∈ trimL t := mem_skipWsL hc h3
  cases hE : trimL t with
  | nil => rw [hE] at h4; simp at h4
  | cons a l => rfl

theorem kcal_short_circuit (t : String) (mid : ℚ)
    (h : kcalFind (t.data.map asciiLowerC) = some mid) :
    estimateKcalRangeFromText t = .okRes (boundedRange mid 0.05) 0.10 := by
  have hne : (trimL (t.data.map asciiLowerC)).isEmpty = false := by
    obtain ⟨s, hs, hsub⟩ := scanL_mem kcalMatchAt (t.data.map asciiLowerC) mid h
    obtain ⟨c, r, rfl, hdig⟩ := kcalMatchAt_head hs
    exact trimL_ne_nil (hsub c (List.mem_cons_self _ _)) (digit_not_ws hdig)
  simp only [estimateKcalRangeFromText, hne, Bool.false_eq_true, if_false, h]

/-- C4 (amended): the direct-kcal short-circuit fires exactly when the
regex `(\d+(\.\d+)?)\s*(kcal|千卡|卡)\b` matches the lowercased text, in
which case the captured number becomes the midpoint with the narrowest
uncertainty (`u = 0.05`, suggested 0.10) regardless of any food keywords;
"炸鸡200kcal" and "chicken 200kcal" both yield mid 200 — but the trailing
word boundary fails after a CJK unit token at the end of the text, so
e.g. "炸鸡200卡" does not short-circuit. -/
theorem estimateKcalRangeFromText_direct :
    (∀ (t : String) (mid : ℚ), kcalFind (t.data.map asciiLowerC) = some mid →
      estimateKcalRangeFromText t = .okRes (boundedRange mid 0.05) 0.10)
    ∧ estimateKcalRangeFromText "炸鸡200kcal" = .okRes (boundedRange 200 0.05) 0.10
    ∧ estimateKcalRangeFromText "chicken 200kcal" = .okRes (boundedRange 200 0.05) 0.10
    ∧ (boundedRange 200 0.05).mid = 200
    ∧ kcalFind "炸鸡200卡".data = none := by
  refine ⟨kcal_short_circuit, by decide, by decide, by decide, by decide⟩

/-- C4 (witness): the short-circuit clause applied at "鱼120kcal". -/
theorem estimateKcalRangeFromText_direct_witness :
    estimateKcalRangeFromText "鱼120kcal" = .okRes (boundedRange 120 0.05) 0.10 :=
  estimateKcalRangeFromText_direct.1 "鱼120kcal" 120 (by decide)

/-- C4 (counterexample): the text "炸鸡200卡" contains the number 200
immediately followed by the calorie-unit token 卡, yet the returned
midpoint is 394 — the food-matching estimate for 炸鸡 at its default
portion with the frying multiplier — not 200: the trailing `\b` of the regex
cannot match after a CJK unit at the end of the text, so the claimed
short-circuit never fires. -/
theorem estimateKcalRangeFromText_direct_counterexample :
    includesL "炸鸡200卡".data "200卡".data = true
    ∧ (resRange (estimateKcalRangeFromText "炸鸡200卡")).map KRange.mid = some 394
    ∧ ¬ (resRange (estimateKcalRangeFromText "炸鸡200卡")).map KRange.mid = some 200 := by
  refine ⟨by decide, by decide, by decide⟩

/-- C7: for the text "米饭 鸡胸" (two distinct foods, no explicit
quantities) the low and high of the combined result equal the sums of the
two individual default-portion range bounds (168+178 and 300+317), and
the aggregate midpoint is recomputed as `round((Σlow + Σhigh)/2)`. -/
theorem estimateKcalRangeFromText_sum :
    (resRange (estimateKcalRangeFromText "米饭")).map KRange.low = some 168
    ∧ (resRange (estimateKcalRangeFromText "米饭")).map KRange.high = some 300
    ∧ (resRange (estimateKcalRangeFromText "鸡胸")).map KRange.low = some 178
    ∧ (resRange (estimateKcalRangeFromText "鸡胸")).map KRange.high = some 317
    ∧ (resRange (estimateKcalRangeFromText "米饭 鸡胸")).map KRange.low = some (168 + 178)
    ∧ (resRange (estimateKcalRangeFromText "米饭 鸡胸")).map KRange.high = some (300 + 317)
    ∧ (resRange (estimateKcalRangeFromText "米饭 鸡胸")).map KRange.mid
        = some (jsRound (((346 + 617 : ℤ) : ℚ) / 2)) := by
  refine ⟨by decide, by decide, by decide, by decide, by decide, by decide, by decide⟩

theorem parseDigitsAux_digits :
    ∀ (n : ℕ) (acc : ℕ) (l : List Char), n ≤ l.length → l.all isDigitC = true →
      ∃ v, parseDigitsAux n acc l = some (v, l.drop n) := by
  intro n
  induction n with
  | zero => intro acc l _ _; exact ⟨acc, rfl⟩
  | succ m ih =>
    intro acc l hlen hall
    cases l with
    | nil => simp at hlen
    | cons c r =>
      simp only [List.all_cons, Bool.and_eq_true] at hall
      simp only [parseDigitsAux, hall.1, if_true]
      have hlen2 : m ≤ r.length := by
        simp only [List.length_cons] at hlen
        omega
      obtain ⟨v, hv⟩ := ih (10 * acc + (c.toNat - 48)) r hlen2 hall.2
      exact ⟨v, hv⟩

theorem isoParse_digits {l : List Char} (h5 : 5 ≤ l.length)
    (hd : l.all isDigitC = true) : isoParse l = none := by
  cases l with
  | nil => simp at h5
  | cons a l1 =>
  cases l1 with
  | nil => simp only [List.length_cons, List.length_nil] at h5; omega
  | cons b l2 =>
  cases l2 with
  | nil => simp only [List.length_cons, List.length_nil] at h5; omega
  | cons c l3 =>
  cases l3 with
  | nil => simp only [List.length_cons, List.length_nil] at h5; omega
  | cons d l4 =>
  cases l4 with
  | nil => simp only [List.length_cons, List.length_nil] at h5; omega
  | cons e t =>
  have hall := hd
  simp only [List.all_cons, Bool.and_eq_true] at hall
  obtain ⟨-, -, -, -, he, -⟩ := hall
  have hne1 : e ≠ '-' := by
    intro heq
    rw [heq] at he
    exact absurd he (by decide)
  have hne2 : e ≠ 'T' := by
    intro heq
    rw [heq] at he
    exact absurd he (by decide)
  obtain ⟨v, hv⟩ := parseDigitsAux_digits 4 0 (a :: b :: c :: d :: e :: t)
    (by simp only [List.length_cons]; omega) hd
  have hv2 : parseDigitsAux 4 0 (a :: b :: c :: d :: e :: t) = some (v, e :: t) := hv
  unfold isoParse
  simp only [hv2]
  rw [if_neg hne1]
  simp only [withTime]
  rw [if_neg hne2]

/-- C5 (counterexample): a 13-digit all-digit timestamp string does not
parse at all, let alone as epoch milliseconds: `tryParseDate` has no
epoch-number branches, and the generic parse (modeled by the ECMA-262
Date Time String Format) rejects digit-only strings longer than a year. -/
theorem tryParseDate_epoch13_counterexample :
    "1700000000000".data.all isDigitC = true
    ∧ "1700000000000".length = 13
    ∧ tryParseDate "1700000000000" = none
    ∧ ¬ tryParseDate "1700000000000" = some 1700000000000 := by
  refine ⟨by decide, by decide, by decide, by decide⟩

/-- C5 (amended): `tryParseDate` tries only the generic parse of the
string and then the same parse with forward slashes normalized to hyphens
(after rejecting the empty string); it has no 13-digit or 10-digit epoch
interpretation — any all-digit string of length ≥ 5 (so in particular 10-
and 13-digit epoch values) fails to parse — while a slashed date such as
"2026/02/03" parses only through the hyphen normalization. -/
theorem tryParseDate_order :
    (∀ s : String, tryParseDate s
        = if s.data.isEmpty then none
          else (dateParse s).orElse (fun _ => dateParse (slashNorm s)))
    ∧ (∀ s : String, 5 ≤ s.data.length → s.data.all isDigitC = true →
        tryParseDate s = none)
    ∧ dateParse "2026/02/03" = none
    ∧ tryParseDate "2026/02/03" = some 1770076800000 := by
  refine ⟨?_, ?_, by decide, by decide⟩
  · intro s
    unfold tryParseDate
    by_cases h : s.data.isEmpty
    · rw [if_pos h, if_pos h]
    · rw [if_neg h, if_neg h]
      cases hd : dateParse s <;> simp [Option.orElse]
  · intro s h5 hall
    have h1 : isoParse s.data = none := isoParse_digits h5 hall
    have hne : s.data.isEmpty = false := by
      cases hsd : s.data with
      | nil => rw [hsd] at h5; simp at h5
      | cons x r => rfl
    have hsl : (slashNorm s).data = s.data := by
      have hcong : s.data.map (fun c => if c = '/' then '-' else c) = s.data.map id := by
        apply List.map_congr_left
        intro x hx
        have hdx : isDigitC x = true := by
          have := List.all_eq_true.1 hall x hx
          simpa using this
        have : x ≠ '/' := by
          intro heq
          rw [heq] at hdx
          exact absurd hdx (by decide)
        simp [this]
      show s.data.map (fun c => if c = '/' then '-' else c) = s.data
      rw [hcong, List.map_id]
    have hds : dateParse s = none := h1
    have hds2 : dateParse (slashNorm s) = none := by
      show isoParse (slashNorm s).data = none
      rw [hsl]
      exact h1
    unfold tryParseDate
    rw [if_neg (by simp [hne])]
    rw [hds, hds2]

/-- C5 (witness): the no-epoch-handling clause at the 10-digit string
"1234567890", which the claim says should parse as epoch seconds. -/
theorem tryParseDate_order_witness :
    5 ≤ "1234567890".data.length ∧ tryParseDate "1234567890" = none :=
  ⟨by decide, tryParseDate_order.2.1 "1234567890" (by decide) (by decide)⟩
